import Mathlib

/-!
Verification of the Order access service
(`src/main/webapp/app/entities/order/service/order.service.ts`).

The service translates Order entities between an in-memory form (typed
`dayjs` date) and a wire form (ISO string date), manages client-side
collections of orders, and fans out inventory updates on shipping.

JavaScript optionality is three-valued (a field can hold a value, hold
`null`, or be `undefined`/absent); `JsOpt` embeds that.  `dayjs` values
are embedded as UTC civil-time fields together with an `invalid` state,
with `toJSON` the millisecond-precision ISO-8601 serialization used by
`Date.prototype.toISOString` (which `dayjs#toJSON` delegates to).
-/

/-- JavaScript three-valued optionality: a present value, an explicit
`null`, or `undefined` (which also stands for an absent field). -/
inductive JsOpt (α : Type) where
  | undef : JsOpt α
  | null : JsOpt α
  | val : α → JsOpt α
deriving DecidableEq, Repr

/-- Modelled from the spec: a civil (calendar) UTC timestamp, the content of
a valid `dayjs` value as this service observes it — the date attribute is
"semantically a timestamp" and on the wire "an ISO-8601-ish string".
`dayjs` itself is a third-party library, outside the repository. -/
structure CivilTime where
  year : Nat
  month : Nat
  day : Nat
  hour : Nat
  minute : Nat
  second : Nat
  millis : Nat
deriving DecidableEq, Repr

/-- The decimal digit character for `n % 10`-sized inputs. -/
def natDigit : Nat → Char
  | 0 => '0'
  | 1 => '1'
  | 2 => '2'
  | 3 => '3'
  | 4 => '4'
  | 5 => '5'
  | 6 => '6'
  | 7 => '7'
  | 8 => '8'
  | 9 => '9'
  | _ => '0'

/-- Numeric value of a digit character. -/
def digitVal (c : Char) : Nat := c.toNat - 48

/-- Two-digit zero-padded decimal rendering (`String#padStart(2, '0')`). -/
def pad2 (n : Nat) : List Char := [natDigit (n / 10 % 10), natDigit (n % 10)]

/-- Three-digit zero-padded decimal rendering. -/
def pad3 (n : Nat) : List Char :=
  [natDigit (n / 100 % 10), natDigit (n / 10 % 10), natDigit (n % 10)]

/-- Four-digit zero-padded decimal rendering. -/
def pad4 (n : Nat) : List Char :=
  [natDigit (n / 1000 % 10), natDigit (n / 100 % 10),
   natDigit (n / 10 % 10), natDigit (n % 10)]

/-- The character sequence of `Date.prototype.toISOString`:
`YYYY-MM-DDTHH:mm:ss.sssZ`, milliseconds always present. -/
def formatISOChars (t : CivilTime) : List Char :=
  pad4 t.year ++ ('-' :: (pad2 t.month ++ ('-' :: (pad2 t.day ++
    ('T' :: (pad2 t.hour ++ (':' :: (pad2 t.minute ++ (':' :: (pad2 t.second ++
      ('.' :: (pad3 t.millis ++ ['Z']))))))))))))

/-- `toISOString` as a `String`. -/
def formatISO (t : CivilTime) : String := String.mk (formatISOChars t)

/-- Read exactly two decimal digits from the front of a character list,
returning their value and the remainder. -/
def read2 : List Char → Option (Nat × List Char)
  | c1 :: c0 :: cs =>
    if c1.isDigit && c0.isDigit then
      some (10 * digitVal c1 + digitVal c0, cs)
    else none
  | _ => none

/-- Read exactly three decimal digits. -/
def read3 : List Char → Option (Nat × List Char)
  | c2 :: c1 :: c0 :: cs =>
    if c2.isDigit && c1.isDigit && c0.isDigit then
      some (100 * digitVal c2 + 10 * digitVal c1 + digitVal c0, cs)
    else none
  | _ => none

/-- Read exactly four decimal digits. -/
def read4 : List Char → Option (Nat × List Char)
  | c3 :: c2 :: c1 :: c0 :: cs =>
    if c3.isDigit && c2.isDigit && c1.isDigit && c0.isDigit then
      some (1000 * digitVal c3 + 100 * digitVal c2 + 10 * digitVal c1 +
        digitVal c0, cs)
    else none
  | _ => none

/-- Consume one expected character. -/
def expectChar (c : Char) : List Char → Option (List Char)
  | [] => none
  | d :: cs => if d = c then some cs else none

/-- ISO-8601 UTC parse as `dayjs(string)` performs it on the strings this
service exchanges: `YYYY-MM-DDTHH:mm:ss[.sss]Z`, the fractional-second part
optional. -/
def parseISOChars (cs : List Char) : Option CivilTime :=
  match read4 cs with
  | none => none
  | some (y, cs) =>
  match expectChar '-' cs with
  | none => none
  | some cs =>
  match read2 cs with
  | none => none
  | some (mo, cs) =>
  match expectChar '-' cs with
  | none => none
  | some cs =>
  match read2 cs with
  | none => none
  | some (d, cs) =>
  match expectChar 'T' cs with
  | none => none
  | some cs =>
  match read2 cs with
  | none => none
  | some (h, cs) =>
  match expectChar ':' cs with
  | none => none
  | some cs =>
  match read2 cs with
  | none => none
  | some (mi, cs) =>
  match expectChar ':' cs with
  | none => none
  | some cs =>
  match read2 cs with
  | none => none
  | some (s, cs) =>
  match cs with
  | '.' :: cs =>
    (match read3 cs with
     | none => none
     | some (ms, cs) =>
       match expectChar 'Z' cs with
       | none => none
       | some cs => if cs = [] then some ⟨y, mo, d, h, mi, s, ms⟩ else none)
  | _ =>
    match expectChar 'Z' cs with
    | none => none
    | some cs => if cs = [] then some ⟨y, mo, d, h, mi, s, 0⟩ else none

/-- ISO parse on a `String`. -/
def parseISO (s : String) : Option CivilTime := parseISOChars s.data

/-- Modelled from the spec: a `dayjs` value — either a valid timestamp or
the library's "Invalid Date" state (an unparseable input still yields an
object). -/
inductive Dayjs where
  | valid : CivilTime → Dayjs
  | invalid : Dayjs
deriving DecidableEq, Repr

/-- The `dayjs(string)` constructor. -/
def dayjs (s : String) : Dayjs :=
  match parseISO s with
  | some t => Dayjs.valid t
  | none => Dayjs.invalid

/-- `dayjs#toJSON`: the ISO string for a valid date, JavaScript `null`
(here `none`) for an invalid one. -/
def Dayjs.toJSON : Dayjs → Option String
  | Dayjs.valid t => some (formatISO t)
  | Dayjs.invalid => none

/-- Fields small enough for their fixed-width rendering; every timestamp an
actual `dayjs` value can hold satisfies this. -/
def CivilTime.fieldsInRange (t : CivilTime) : Prop :=
  t.year < 10000 ∧ t.month < 100 ∧ t.day < 100 ∧ t.hour < 100 ∧
    t.minute < 100 ∧ t.second < 100 ∧ t.millis < 1000

instance (t : CivilTime) : Decidable t.fieldsInRange := by
  unfold CivilTime.fieldsInRange; infer_instance

/-- Modelled from the spec: the in-memory Order entity (`order.model.ts` is
not among the staged sources) — "identifier (string, required once
persisted), a date attribute (semantically a timestamp; optional), and an
unspecified set of other domain fields copied through unchanged"; the
latter are collapsed into one opaque `rest` field, which every conversion
spreads through untouched. -/
structure IOrder where
  id : String
  date : JsOpt Dayjs
  rest : String
deriving DecidableEq, Repr

/-- `RestOf<IOrder>`: the wire form — same shape, date as a string
(`date?: string | null`). -/
structure RestOrder where
  id : String
  date : JsOpt String
  rest : String
deriving DecidableEq, Repr

/-- `PartialUpdateOrder = Partial<IOrder> & Pick<IOrder, 'id'>`: the
identifier is required, every other field optional (absent = `undef`). -/
structure PartialUpdateOrder where
  id : String
  date : JsOpt Dayjs
  rest : JsOpt String
deriving DecidableEq, Repr

/-- `RestOf<PartialUpdateOrder>`. -/
structure PartialUpdateRestOrder where
  id : String
  date : JsOpt String
  rest : JsOpt String
deriving DecidableEq, Repr

/-- `getOrderIdentifier(order)`: `order.id`. -/
def getOrderIdentifier (order : IOrder) : String := order.id

/-- `compareOrder(o1, o2)`:
`o1 && o2 ? this.getOrderIdentifier(o1) === this.getOrderIdentifier(o2) : o1 === o2`.
Both arguments have type `Pick<IOrder, 'id'> | null`; objects are truthy, so
the first branch is taken exactly when both are present, and otherwise
`o1 === o2` holds exactly when both are `null`. -/
def compareOrder (o1 o2 : Option IOrder) : Bool :=
  match o1, o2 with
  | some a, some b => getOrderIdentifier a == getOrderIdentifier b
  | none, none => true
  | _, _ => false

/-- The date-serialization expression `order.date?.toJSON() ?? null` shared
by every `convertDateFromClient` instantiation: optional chaining maps an
absent/`null` date to `undefined`, `toJSON` maps an invalid date to `null`,
and `?? null` collapses both to an explicit `null`. -/
def dateToJSONOrNull (date : JsOpt Dayjs) : JsOpt String :=
  match date with
  | JsOpt.val d =>
    match d.toJSON with
    | some s => JsOpt.val s
    | none => JsOpt.null
  | _ => JsOpt.null

/-- `convertDateFromClient(order)` at `T = IOrder`:
`{ ...order, date: order.date?.toJSON() ?? null }`. -/
def convertDateFromClient (order : IOrder) : RestOrder :=
  { id := order.id, date := dateToJSONOrNull order.date, rest := order.rest }

/-- `convertDateFromClient(order)` at `T = PartialUpdateOrder`. -/
def convertDateFromClientOnPatch (order : PartialUpdateOrder) :
    PartialUpdateRestOrder :=
  { id := order.id, date := dateToJSONOrNull order.date, rest := order.rest }

/-- `convertDateFromServer(restOrder)`:
`{ ...restOrder, date: restOrder.date ? dayjs(restOrder.date) : undefined }`.
The truthiness test sends `undefined`, `null` and the empty string to
`undefined`. -/
def convertDateFromServer (restOrder : RestOrder) : IOrder :=
  { id := restOrder.id,
    date :=
      match restOrder.date with
      | JsOpt.val s => if s = "" then JsOpt.undef else JsOpt.val (dayjs s)
      | _ => JsOpt.undef,
    rest := restOrder.rest }

/-- An HTTP response envelope: a body (`null` embedded as `none`) plus a
representative piece of the metadata `res.clone` preserves. -/
structure HttpResponse (α : Type) where
  status : Nat
  body : Option α
deriving DecidableEq, Repr

/-- `convertResponseFromServer(res)`:
`res.clone({ body: res.body ? this.convertDateFromServer(res.body) : null })`. -/
def convertResponseFromServer (res : HttpResponse RestOrder) :
    HttpResponse IOrder :=
  { res with body := res.body.map convertDateFromServer }

/-- `convertResponseArrayFromServer(res)`:
`res.clone({ body: res.body ? res.body.map(item => this.convertDateFromServer(item)) : null })`.
A JavaScript array is truthy even when empty, so exactly a `null` body is
kept `null`. -/
def convertResponseArrayFromServer (res : HttpResponse (List RestOrder)) :
    HttpResponse (List IOrder) :=
  { res with body := res.body.map (List.map convertDateFromServer) }

/-- The request body `partialUpdate(order)` sends:
`const copy = this.convertDateFromClient(order)` is the PATCH payload. -/
def partialUpdateRequestBody (order : PartialUpdateOrder) :
    PartialUpdateRestOrder :=
  convertDateFromClientOnPatch order

/-- The candidate filter inside `addOrderToCollectionIfMissing`, with the
mutable `orderCollectionIdentifiers` array made explicit: a candidate whose
identifier is already in the array is rejected (`includes` → `return
false`), otherwise its identifier is pushed onto the array and the
candidate kept. -/
def filterNotIncluded (ids : List String) : List IOrder → List IOrder
  | [] => []
  | orderItem :: rest =>
    if ids.contains (getOrderIdentifier orderItem) then
      filterNotIncluded ids rest
    else
      orderItem :: filterNotIncluded (ids ++ [getOrderIdentifier orderItem]) rest

/-- `addOrderToCollectionIfMissing(orderCollection, ...ordersToCheck)`:
drop absent candidates (`filter(isPresent)`); when any remain, seed the
identifier array from the collection, filter the candidates against it,
and return `[...ordersToAdd, ...orderCollection]`; when none remain,
return `orderCollection` itself. -/
def addOrderToCollectionIfMissing (orderCollection : List IOrder)
    (ordersToCheck : List (Option IOrder)) : List IOrder :=
  let orders := ordersToCheck.filterMap id
  if orders.length > 0 then
    filterNotIncluded (orderCollection.map getOrderIdentifier) orders
      ++ orderCollection
  else orderCollection

/-- Whether this call of `addOrderToCollectionIfMissing` returns the input
array reference itself.  In the source only the `orders.length > 0` false
branch returns `orderCollection` unchanged; the other branch builds a fresh
array with the spread `[...ordersToAdd, ...orderCollection]`, which always
allocates. -/
def addOrderReturnsSameReference (ordersToCheck : List (Option IOrder)) :
    Bool :=
  (ordersToCheck.filterMap id).length = 0

/-- Modelled from the spec: the merge algorithm as the spec words it —
"build a working set of identifiers already present in the existing
collection; iterate candidates in the order given; for each candidate not
yet in the working set, add its identifier to the working set and mark it
for inclusion" — written as a recursion over the candidates with the
working set as accumulator.  Used only to compare against the source's
`addOrderToCollectionIfMissing`. -/
def specAcceptCandidates (workingSet : List String) :
    List IOrder → List IOrder
  | [] => []
  | cand :: rest =>
    if getOrderIdentifier cand ∈ workingSet then
      specAcceptCandidates workingSet rest
    else cand :: specAcceptCandidates (getOrderIdentifier cand :: workingSet) rest

/-- Modelled from the spec: "the sequence of newly-accepted candidates (in
their original relative order) prepended to the original collection,
unchanged in its internal order", null/absent candidates silently
dropped. -/
def specAddOrderToCollection (orderCollection : List IOrder)
    (ordersToCheck : List (Option IOrder)) : List IOrder :=
  specAcceptCandidates (orderCollection.map getOrderIdentifier)
    (ordersToCheck.filterMap id) ++ orderCollection

/-- Modelled from the spec: the sort-direction tokens of
`navigation.constants` (not among the staged sources); the spec gives the
formats `"<field>,asc"` / `"<field>,desc"`. -/
def ASC : String := "asc"

/-- Modelled from the spec: the descending token. -/
def DESC : String := "desc"

/-- The service's retained sort-preference fields, with their declared
initial values `predicate = 'id'`, `ascending = true`. -/
structure OrderServiceState where
  predicate : String
  ascending : Bool
deriving DecidableEq, Repr

/-- The field initializers of the service. -/
def initialOrderServiceState : OrderServiceState :=
  { predicate := "id", ascending := true }

/-- `getSortQueryParam(predicate = this.predicate, ascending = this.ascending)`:
an omitted argument (here `none`) falls back to the retained field; an
empty predicate yields `[]`, otherwise one `"<predicate>,<direction>"`
entry. -/
def getSortQueryParam (svc : OrderServiceState) (predicateArg : Option String)
    (ascendingArg : Option Bool) : List String :=
  let predicate := predicateArg.getD svc.predicate
  let ascending := ascendingArg.getD svc.ascending
  let ascendingQueryParam := if ascending then ASC else DESC
  if predicate = "" then []
  else [predicate ++ "," ++ ascendingQueryParam]

/-- Modelled from the spec: the GoodInOrder join entity
(`good-in-order.model.ts` is not among the staged sources) — `good_id`,
`good_amount` (authoritative stock), `good_in_order_amount` (allocated
quantity); the service casts the two amounts to `number`. -/
structure GoodInOrder where
  good_id : String
  good_amount : Int
  good_in_order_amount : Int
deriving DecidableEq, Repr

/-- The settled outcome of an rxjs observable that emits at most once: it
emits a value and completes, errors, or completes without emitting. -/
inductive ObsOutcome (ε α : Type) where
  | value : α → ObsOutcome ε α
  | error : ε → ObsOutcome ε α
  | emptyCompletion : ObsOutcome ε α
deriving DecidableEq, Repr

/-- Join a list of single-shot source outcomes: the combined value when
every source emitted, else the error of the first failing source. -/
def joinResults {ε ρ : Type} : List (Except ε ρ) → Except ε (List ρ)
  | [] => Except.ok []
  | Except.error e :: _ => Except.error e
  | Except.ok r :: rest =>
    match joinResults rest with
    | Except.ok rs => Except.ok (r :: rs)
    | Except.error e => Except.error e

/-- rxjs `combineLatest` over single-emission HTTP sources: on an empty
source array it completes immediately without emitting; otherwise it emits
the array of source values once all have emitted, and errors as soon as
any source errors. -/
def combineLatest {ε ρ : Type} (sources : List (Except ε ρ)) :
    ObsOutcome ε (List ρ) :=
  if sources.isEmpty then ObsOutcome.emptyCompletion
  else
    match joinResults sources with
    | Except.ok rs => ObsOutcome.value rs
    | Except.error e => ObsOutcome.error e

/-- The argument pairs `decrementGoodsCountOnShip` hands to
`goodService.updateAmountByGoodId`: one call per entry, carrying
`good_id` and `diff = good_amount - good_in_order_amount`. -/
def decrementUpdateCalls (goodsInOrder : List GoodInOrder) :
    List (String × Int) :=
  goodsInOrder.map fun goodInOrder =>
    (goodInOrder.good_id,
     goodInOrder.good_amount - goodInOrder.good_in_order_amount)

/-- `decrementGoodsCountOnShip(goodsInOrder)`:
`combineLatest(goodsInOrder.map(g => this.goodService.updateAmountByGoodId(g.good_id, diff)))`.
The external Good collaborator is abstracted as a function from the call
arguments to the eventual outcome of that single HTTP call. -/
def decrementGoodsCountOnShip {ε ρ : Type}
    (updateAmountByGoodId : String → Int → Except ε ρ)
    (goodsInOrder : List GoodInOrder) : ObsOutcome ε (List ρ) :=
  combineLatest
    (goodsInOrder.map fun goodInOrder =>
      updateAmountByGoodId goodInOrder.good_id
        (goodInOrder.good_amount - goodInOrder.good_in_order_amount))

/-! ## Helper lemmas -/

theorem natDigit_isDigit (k : Nat) : (natDigit (k % 10)).isDigit = true := by
  have h : k % 10 < 10 := Nat.mod_lt _ (by norm_num)
  generalize k % 10 = m at h
  interval_cases m <;> decide

theorem digitVal_natDigit (k : Nat) :
    digitVal (natDigit (k % 10)) = k % 10 := by
  have h : k % 10 < 10 := Nat.mod_lt _ (by norm_num)
  generalize k % 10 = m at h ⊢
  interval_cases m <;> decide

theorem read2_pad2 (n : Nat) (rest : List Char) (h : n < 100) :
    read2 (pad2 n ++ rest) = some (n, rest) := by
  simp [pad2, read2, natDigit_isDigit, digitVal_natDigit]
  omega

theorem read3_pad3 (n : Nat) (rest : List Char) (h : n < 1000) :
    read3 (pad3 n ++ rest) = some (n, rest) := by
  simp [pad3, read3, natDigit_isDigit, digitVal_natDigit]
  omega

theorem read4_pad4 (n : Nat) (rest : List Char) (h : n < 10000) :
    read4 (pad4 n ++ rest) = some (n, rest) := by
  simp [pad4, read4, natDigit_isDigit, digitVal_natDigit]
  omega

theorem parseISOChars_formatISOChars (t : CivilTime)
    (h : t.fieldsInRange) : parseISOChars (formatISOChars t) = some t := by
  obtain ⟨hy, hmo, hd, hh, hmi, hs, hms⟩ := h
  rw [formatISOChars, parseISOChars]
  simp only [read4_pad4 _ _ hy, read2_pad2 _ _ hmo, read2_pad2 _ _ hd,
    read2_pad2 _ _ hh, read2_pad2 _ _ hmi, read2_pad2 _ _ hs,
    read3_pad3 _ _ hms, expectChar, reduceIte]

/-- A valid date round-trips through serialization: `dayjs` applied to its
own `toJSON` output recovers the same timestamp. -/
theorem dayjs_formatISO (t : CivilTime) (h : t.fieldsInRange) :
    dayjs (formatISO t) = Dayjs.valid t := by
  rw [dayjs, parseISO, formatISO, parseISOChars_formatISOChars t h]

/-- The serialized form of a date is never the empty string (so the
truthiness test in `convertDateFromServer` accepts it). -/
theorem formatISO_ne_empty (t : CivilTime) : formatISO t ≠ "" := by
  simp [formatISO, formatISOChars, pad4, String.ext_iff]

theorem contains_iff_mem (l : List String) (x : String) :
    l.contains x = true ↔ x ∈ l := by
  simp [List.contains]

/-- Seeding the candidate filter with two identifier lists of the same
membership gives the same accepted candidates: the source's mutable-array
filter agrees with the spec's working-set recursion. -/
theorem filterNotIncluded_eq_specAccept (os : List IOrder) :
    ∀ ids seen : List String, (∀ x, x ∈ ids ↔ x ∈ seen) →
      filterNotIncluded ids os = specAcceptCandidates seen os := by
  induction os with
  | nil => intro ids seen _; rfl
  | cons o rest ih =>
    intro ids seen h
    rw [filterNotIncluded, specAcceptCandidates]
    by_cases hmem : getOrderIdentifier o ∈ seen
    · rw [if_pos (by rw [contains_iff_mem, h]; exact hmem), if_pos hmem]
      exact ih ids seen h
    · rw [if_neg (by rw [contains_iff_mem, h]; exact hmem), if_neg hmem]
      refine congrArg (o :: ·) (ih _ _ fun x => ?_)
      simp only [List.mem_append, List.mem_singleton, List.mem_cons, h x]
      tauto

/-- Every candidate the filter accepts was absent from the seed identifier
list, and the accepted identifiers are pairwise distinct. -/
theorem filterNotIncluded_fresh_nodup (os : List IOrder) :
    ∀ ids : List String,
      (∀ o ∈ filterNotIncluded ids os, getOrderIdentifier o ∉ ids) ∧
        ((filterNotIncluded ids os).map getOrderIdentifier).Nodup := by
  induction os with
  | nil =>
    intro ids
    exact ⟨fun o h => absurd h (List.not_mem_nil o), List.nodup_nil⟩
  | cons o rest ih =>
    intro ids
    rw [filterNotIncluded]
    by_cases hmem : (ids.contains (getOrderIdentifier o)) = true
    · rw [if_pos hmem]; exact ih ids
    · rw [if_neg hmem]
      obtain ⟨fresh, nodup⟩ := ih (ids ++ [getOrderIdentifier o])
      have hni : getOrderIdentifier o ∉ ids := by
        rw [← contains_iff_mem]; exact fun hc => hmem hc
      refine ⟨?_, ?_⟩
      · intro b hb
        rcases List.mem_cons.mp hb with hb | hb
        · rw [hb]; exact hni
        · exact fun hin => fresh b hb (List.mem_append.mpr (Or.inl hin))
      · rw [List.map_cons, List.nodup_cons]
        refine ⟨?_, nodup⟩
        intro hin
        rcases List.mem_map.mp hin with ⟨b, hb, hid⟩
        exact fresh b hb (List.mem_append.mpr (Or.inr (by simp [hid])))

/-- When every source of the join emitted a value, the join's value is the
list of source values in source order. -/
theorem joinResults_map_ok {ε ρ : Type} (rs : List ρ) :
    joinResults (ε := ε) (rs.map Except.ok) = Except.ok rs := by
  induction rs with
  | nil => rfl
  | cons r rest ih => rw [List.map_cons, joinResults, ih]

/-- A failing source makes the whole join fail. -/
theorem joinResults_error_of_mem {ε ρ : Type} (xs : List (Except ε ρ))
    (e : ε) (hmem : Except.error e ∈ xs) :
    ∃ e', joinResults xs = Except.error e' := by
  induction xs with
  | nil => cases hmem
  | cons x rest ih =>
    cases x with
    | error e₀ => exact ⟨e₀, rfl⟩
    | ok r =>
      have : Except.error e ∈ rest := by
        rcases List.mem_cons.mp hmem with h | h
        · cases h
        · exact h
      obtain ⟨e', he'⟩ := ih this
      exact ⟨e', by rw [joinResults, he']⟩

/-- A non-empty all-success fan-out emits the combined value list. -/
theorem combineLatest_value {ε ρ : Type} (xs : List (Except ε ρ))
    (rs : List ρ) (hne : xs ≠ []) (hok : xs = rs.map Except.ok) :
    combineLatest xs = ObsOutcome.value rs := by
  have hrs : ¬((rs.map (Except.ok : ρ → Except ε ρ)).isEmpty = true) := by
    rw [← hok]
    cases xs with
    | nil => exact absurd rfl hne
    | cons x rest => simp
  rw [combineLatest, hok, joinResults_map_ok, if_neg hrs]

/-- A fan-out with a failing source fails. -/
theorem combineLatest_error {ε ρ : Type} (xs : List (Except ε ρ))
    (e : ε) (hmem : Except.error e ∈ xs) :
    ∃ e', combineLatest xs = ObsOutcome.error e' := by
  obtain ⟨e', he'⟩ := joinResults_error_of_mem xs e hmem
  have hne : ¬(xs.isEmpty = true) := by
    cases xs with
    | nil => cases hmem
    | cons x rest => simp
  exact ⟨e', by rw [combineLatest, if_neg hne, he']⟩

/-! ## Claim theorems -/

/-- C4: `compareOrder` is the canonical identity comparison — two absent
references are equal, a present reference never equals an absent one, two
present references are equal exactly when `getOrderIdentifier` agrees on
them; in particular it is reflexive on present orders and on `null`. -/
theorem compareOrder_canonical_identity :
    (∀ a b : IOrder, compareOrder (some a) (some b) =
      (getOrderIdentifier a == getOrderIdentifier b)) ∧
    compareOrder (none : Option IOrder) none = true ∧
    (∀ o : IOrder, compareOrder (some o) none = false ∧
      compareOrder none (some o) = false ∧
      compareOrder (some o) (some o) = true) := by
  refine ⟨fun a b => rfl, rfl, fun o => ⟨rfl, rfl, ?_⟩⟩
  simp [compareOrder]

/-- C7: `getSortQueryParam` returns `[]` for the empty predicate and a
one-element `"<predicate>,<direction>"` list otherwise, with the fixed
`asc`/`desc` tokens chosen by the boolean; omitted arguments fall back to
the service's retained `predicate`/`ascending` fields; and on the concrete
inputs of the spec it yields `[]`, `["id,asc"]` and `["id,desc"]`. -/
theorem getSortQueryParam_contract :
    (∀ (svc : OrderServiceState) (b : Bool),
      getSortQueryParam svc (some "") (some b) = []) ∧
    (∀ (svc : OrderServiceState) (p : String) (b : Bool), p ≠ "" →
      getSortQueryParam svc (some p) (some b) =
        [p ++ "," ++ (if b then ASC else DESC)]) ∧
    (∀ svc : OrderServiceState,
      getSortQueryParam svc none none =
        getSortQueryParam svc (some svc.predicate) (some svc.ascending)) ∧
    getSortQueryParam initialOrderServiceState (some "") (some true) = [] ∧
    getSortQueryParam initialOrderServiceState (some "id") (some true) =
      ["id,asc"] ∧
    getSortQueryParam initialOrderServiceState (some "id") (some false) =
      ["id,desc"] := by
  refine ⟨fun svc b => rfl, fun svc p b hp => ?_, fun svc => rfl, rfl, rfl, rfl⟩
  rw [getSortQueryParam]
  simp [hp]

/-- C7 witness: the non-empty-predicate clause applied at `"id"`. -/
theorem getSortQueryParam_contract_witness :
    getSortQueryParam initialOrderServiceState (some "id") (some true) =
      ["id" ++ "," ++ (if true then ASC else DESC)] :=
  getSortQueryParam_contract.2.1 initialOrderServiceState "id" true (by decide)

/-- C8: the response transformation used by `query` maps
`convertDateFromServer` over the body array element by element, preserving
order and length, keeps the rest of the envelope, and keeps a `null` body
`null` rather than replacing it by an empty array. -/
theorem query_transform_elementwise :
    (∀ res : HttpResponse (List RestOrder),
      (convertResponseArrayFromServer res).status = res.status ∧
      (convertResponseArrayFromServer res).body =
        res.body.map (List.map convertDateFromServer)) ∧
    (∀ res : HttpResponse (List RestOrder), res.body = none →
      (convertResponseArrayFromServer res).body = none) ∧
    (∀ (res : HttpResponse (List RestOrder)) (l : List RestOrder),
      res.body = some l →
      ∃ l', (convertResponseArrayFromServer res).body = some l' ∧
        l'.length = l.length ∧
        ∀ i : Nat, l'[i]? = (l[i]?).map convertDateFromServer) := by
  refine ⟨fun res => ⟨rfl, rfl⟩, fun res h => ?_, fun res l h => ?_⟩
  · rw [convertResponseArrayFromServer]
    simp [h]
  · refine ⟨l.map convertDateFromServer, ?_, List.length_map _ _, fun i => ?_⟩
    · rw [convertResponseArrayFromServer]
      simp [h]
    · rw [List.getElem?_map]

/-- C8 witness: the transformation evaluated on a `null`-body response and
on a two-element response. -/
theorem query_transform_elementwise_witness :
    (convertResponseArrayFromServer ⟨200, none⟩).body = none ∧
    ∃ l', (convertResponseArrayFromServer
        ⟨200, some [⟨"1", JsOpt.null, ""⟩, ⟨"2", JsOpt.val "2023-05-01T00:00:00.000Z", ""⟩]⟩).body
        = some l' ∧
      l'.length = ([⟨"1", JsOpt.null, ""⟩,
        ⟨"2", JsOpt.val "2023-05-01T00:00:00.000Z", ""⟩] : List RestOrder).length ∧
      ∀ i : Nat, l'[i]? =
        (([⟨"1", JsOpt.null, ""⟩,
          ⟨"2", JsOpt.val "2023-05-01T00:00:00.000Z", ""⟩] : List RestOrder)[i]?).map
          convertDateFromServer :=
  ⟨query_transform_elementwise.2.1 ⟨200, none⟩ rfl,
   query_transform_elementwise.2.2 _ _ rfl⟩

/-- C2: `addOrderToCollectionIfMissing` coincides on every input with the
spec's algorithm — drop null/absent candidates, accept each candidate whose
identifier is in neither the original collection nor an earlier accepted
candidate, and prepend the accepted candidates in their original relative
order to the unchanged collection; on the spec's concrete example it
returns `[{id:"2"}, {id:"3"}, {id:"1"}]`. -/
theorem addOrderToCollectionIfMissing_matches_spec :
    (∀ (coll : List IOrder) (cands : List (Option IOrder)),
      addOrderToCollectionIfMissing coll cands =
        specAddOrderToCollection coll cands) ∧
    addOrderToCollectionIfMissing [⟨"1", JsOpt.undef, ""⟩]
        [some ⟨"2", JsOpt.undef, ""⟩, some ⟨"1", JsOpt.undef, ""⟩,
         some ⟨"3", JsOpt.undef, ""⟩] =
      [⟨"2", JsOpt.undef, ""⟩, ⟨"3", JsOpt.undef, ""⟩,
       ⟨"1", JsOpt.undef, ""⟩] := by
  refine ⟨fun coll cands => ?_, by decide⟩
  rw [addOrderToCollectionIfMissing, specAddOrderToCollection]
  by_cases h : (cands.filterMap id).length > 0
  · rw [if_pos h]
    rw [filterNotIncluded_eq_specAccept _ _ _ fun x => Iff.rfl]
  · rw [if_neg h]
    have : cands.filterMap id = [] := List.length_eq_zero.mp (by omega)
    rw [this, specAcceptCandidates, List.nil_append]

/-- C3 counterexample: with collection `[{id:"1"}]` and the single
duplicate candidate `{id:"1"}` no candidate is accepted — the result
equals the original collection — yet the call does not return the original
array reference: the filtered candidate list is non-empty, so the source
takes the spread branch `[...ordersToAdd, ...orderCollection]`, which
allocates a fresh array. -/
theorem addOrder_same_reference_counterexample :
    addOrderToCollectionIfMissing [⟨"1", JsOpt.undef, ""⟩]
        [some ⟨"1", JsOpt.undef, ""⟩] = [⟨"1", JsOpt.undef, ""⟩] ∧
    addOrderReturnsSameReference [some (⟨"1", JsOpt.undef, ""⟩ : IOrder)] =
      false := by
  decide

/-- C3 amended: when every candidate is null/absent the original collection
reference itself is returned (and the call allocates nothing); when present
candidates exist the call returns a fresh array, which is still equal in
value to the original collection whenever no candidate is accepted. -/
theorem addOrder_reference_stability :
    (∀ (coll : List IOrder) (cands : List (Option IOrder)),
      cands.filterMap id = [] →
      addOrderReturnsSameReference cands = true ∧
      addOrderToCollectionIfMissing coll cands = coll) ∧
    (∀ cands : List (Option IOrder), cands.filterMap id ≠ [] →
      addOrderReturnsSameReference cands = false) ∧
    (∀ (coll : List IOrder) (cands : List (Option IOrder)),
      filterNotIncluded (coll.map getOrderIdentifier) (cands.filterMap id) =
        [] →
      addOrderToCollectionIfMissing coll cands = coll) := by
  refine ⟨fun coll cands h => ⟨?_, ?_⟩, fun cands h => ?_, fun coll cands h => ?_⟩
  · rw [addOrderReturnsSameReference, h]
    rfl
  · rw [addOrderToCollectionIfMissing, h]
    rfl
  · rw [addOrderReturnsSameReference]
    simp [h]
  · rw [addOrderToCollectionIfMissing]
    by_cases hlen : (cands.filterMap id).length > 0
    · rw [if_pos hlen, h, List.nil_append]
    · rw [if_neg hlen]

/-- C3 amended witness: the all-absent call `([{id:"1"}], null, undefined)`
returns the original reference, and a call with only the duplicate
candidate `{id:"1"}` is value-equal to the original collection. -/
theorem addOrder_reference_stability_witness :
    (addOrderReturnsSameReference ([none, none] : List (Option IOrder)) =
        true ∧
      addOrderToCollectionIfMissing [(⟨"1", JsOpt.undef, ""⟩ : IOrder)]
        [none, none] = [⟨"1", JsOpt.undef, ""⟩]) ∧
    addOrderReturnsSameReference [some (⟨"1", JsOpt.undef, ""⟩ : IOrder)] =
      false ∧
    addOrderToCollectionIfMissing [(⟨"1", JsOpt.undef, ""⟩ : IOrder)]
      [some ⟨"1", JsOpt.undef, ""⟩] = [⟨"1", JsOpt.undef, ""⟩] :=
  ⟨addOrder_reference_stability.1 [⟨"1", JsOpt.undef, ""⟩] [none, none] rfl,
   addOrder_reference_stability.2.1 [some ⟨"1", JsOpt.undef, ""⟩] (by decide),
   addOrder_reference_stability.2.2 [⟨"1", JsOpt.undef, ""⟩]
     [some ⟨"1", JsOpt.undef, ""⟩] (by decide)⟩

/-- C9: merging preserves duplicate-freedom — if the identifiers of the
collection are pairwise distinct, so are the identifiers of the merged
collection, for any candidates; repeated calls therefore keep the
invariant. -/
theorem addOrder_preserves_nodup (coll : List IOrder)
    (cands : List (Option IOrder))
    (h : (coll.map getOrderIdentifier).Nodup) :
    ((addOrderToCollectionIfMissing coll cands).map
      getOrderIdentifier).Nodup := by
  rw [addOrderToCollectionIfMissing]
  by_cases hlen : (cands.filterMap id).length > 0
  · rw [if_pos hlen, List.map_append]
    obtain ⟨fresh, nodup⟩ :=
      filterNotIncluded_fresh_nodup (cands.filterMap id)
        (coll.map getOrderIdentifier)
    refine List.Nodup.append nodup h ?_
    intro x hx hcoll
    rcases List.mem_map.mp hx with ⟨b, hb, hid⟩
    exact fresh b hb (hid ▸ hcoll)
  · rw [if_neg hlen]
    exact h

/-- C9 witness: the invariant applied to the spec's example collection and
overlapping candidates. -/
theorem addOrder_preserves_nodup_witness :
    ((addOrderToCollectionIfMissing [⟨"1", JsOpt.undef, ""⟩]
      [some ⟨"2", JsOpt.undef, ""⟩, some ⟨"1", JsOpt.undef, ""⟩,
       some ⟨"2", JsOpt.undef, ""⟩]).map getOrderIdentifier).Nodup :=
  addOrder_preserves_nodup [⟨"1", JsOpt.undef, ""⟩]
    [some ⟨"2", JsOpt.undef, ""⟩, some ⟨"1", JsOpt.undef, ""⟩,
     some ⟨"2", JsOpt.undef, ""⟩] (by decide)

/-- C5: `decrementGoodsCountOnShip` issues exactly one update per
GoodInOrder entry, passing `good_id` and the remainder
`good_amount - good_in_order_amount` (on the spec's example the remainders
are 7 and 0); when all updates succeed, the joined observable emits their
response envelopes in input order; and a single failing update fails the
whole operation. -/
theorem decrementGoodsCountOnShip_contract :
    (∀ goods : List GoodInOrder,
      (decrementUpdateCalls goods).length = goods.length ∧
      ∀ i : Nat, (decrementUpdateCalls goods)[i]? =
        (goods[i]?).map fun g =>
          (g.good_id, g.good_amount - g.good_in_order_amount)) ∧
    decrementUpdateCalls [⟨"g1", 10, 3⟩, ⟨"g2", 5, 5⟩] =
      [("g1", 7), ("g2", 0)] ∧
    (∀ {ε ρ : Type} (updateAmountByGoodId : String → Int → Except ε ρ)
      (goods : List GoodInOrder) (rs : List ρ), goods ≠ [] →
      (goods.map fun g => updateAmountByGoodId g.good_id
        (g.good_amount - g.good_in_order_amount)) = rs.map Except.ok →
      decrementGoodsCountOnShip updateAmountByGoodId goods =
        ObsOutcome.value rs) ∧
    (∀ {ε ρ : Type} (updateAmountByGoodId : String → Int → Except ε ρ)
      (goods : List GoodInOrder) (g : GoodInOrder) (e : ε), g ∈ goods →
      updateAmountByGoodId g.good_id
        (g.good_amount - g.good_in_order_amount) = Except.error e →
      ∃ e', decrementGoodsCountOnShip updateAmountByGoodId goods =
        ObsOutcome.error e') := by
  refine ⟨fun goods => ⟨List.length_map _ _, fun i => List.getElem?_map _ _ _⟩,
    by decide, fun svc goods rs hne hok => ?_, fun svc goods g e hg he => ?_⟩
  · exact combineLatest_value _ rs (by simpa using hne) hok
  · refine combineLatest_error _ e ?_
    rw [← he]
    exact List.mem_map.mpr ⟨g, hg, rfl⟩

/-- C5 witness: the contract applied to the spec's two-entry example with
an all-success collaborator, and to a one-entry input whose collaborator
fails. -/
theorem decrementGoodsCountOnShip_contract_witness :
    decrementGoodsCountOnShip
        (fun gid diff => (Except.ok (gid, diff) : Except Unit (String × Int)))
        [⟨"g1", 10, 3⟩, ⟨"g2", 5, 5⟩] =
      ObsOutcome.value [("g1", 7), ("g2", 0)] ∧
    ∃ e', decrementGoodsCountOnShip
        (fun _ _ => (Except.error () : Except Unit Nat)) [⟨"g1", 10, 3⟩] =
      ObsOutcome.error e' :=
  ⟨decrementGoodsCountOnShip_contract.2.2.1 _ [⟨"g1", 10, 3⟩, ⟨"g2", 5, 5⟩]
      [("g1", 7), ("g2", 0)] (by decide) rfl,
   decrementGoodsCountOnShip_contract.2.2.2 _ [⟨"g1", 10, 3⟩] ⟨"g1", 10, 3⟩
      () (by decide) rfl⟩

/-- C10: on an empty goodsInOrder sequence the fan-out completes without
ever emitting — the caller never receives an (empty) result list — while a
non-empty all-success input does emit a combined result list. -/
theorem decrement_empty_never_emits :
    (∀ {ε ρ : Type} (updateAmountByGoodId : String → Int → Except ε ρ),
      decrementGoodsCountOnShip updateAmountByGoodId [] =
        ObsOutcome.emptyCompletion) ∧
    (∀ {ε ρ : Type} (updateAmountByGoodId : String → Int → Except ε ρ)
      (goods : List GoodInOrder) (rs : List ρ), goods ≠ [] →
      (goods.map fun g => updateAmountByGoodId g.good_id
        (g.good_amount - g.good_in_order_amount)) = rs.map Except.ok →
      decrementGoodsCountOnShip updateAmountByGoodId goods =
        ObsOutcome.value rs) := by
  refine ⟨fun svc => rfl, fun svc goods rs hne hok => ?_⟩
  exact combineLatest_value _ rs (by simpa using hne) hok

/-- C10 witness: the empty input completes without a value for a concrete
collaborator, and a concrete one-entry input emits its singleton result
list. -/
theorem decrement_empty_never_emits_witness :
    decrementGoodsCountOnShip
        (fun _ _ => (Except.ok 0 : Except Unit Nat)) [] =
      ObsOutcome.emptyCompletion ∧
    decrementGoodsCountOnShip
        (fun _ _ => (Except.ok 0 : Except Unit Nat)) [⟨"g1", 10, 3⟩] =
      ObsOutcome.value [0] :=
  ⟨decrement_empty_never_emits.1 _,
   decrement_empty_never_emits.2 _ [⟨"g1", 10, 3⟩] [0] (by decide) rfl⟩

/-- C1 counterexample: the concrete wire string `"2023-05-01T00:00:00Z"`
does not round-trip to itself — converting to in-memory form and back
yields the millisecond-normalized `"2023-05-01T00:00:00.000Z"` — and a
payload with no date field does not round-trip to "no date field": an
in-memory order with an absent date serializes to an explicit `date: null`
on the wire. -/
theorem date_roundtrip_counterexample :
    (convertDateFromClient (convertDateFromServer
        ⟨"1", JsOpt.val "2023-05-01T00:00:00Z", ""⟩)).date ≠
      JsOpt.val "2023-05-01T00:00:00Z" ∧
    (convertDateFromClient ⟨"1", JsOpt.undef, ""⟩).date = JsOpt.null := by
  decide

/-- C1 amended: a present valid date round-trips losslessly at the
timestamp level (client → wire → client is the identity on the whole
order); the concrete wire string `"2023-05-01T00:00:00Z"` round-trips to
the normalized string `"2023-05-01T00:00:00.000Z"` denoting the same
timestamp; a wire payload with a missing or `null` date yields an
`undefined` (absent, not default) date in memory, and an in-memory order
with a missing or `null` date yields an explicit `date: null` on the
wire. -/
theorem order_date_roundtrip :
    (∀ (o : IOrder) (t : CivilTime), t.fieldsInRange →
      o.date = JsOpt.val (Dayjs.valid t) →
      convertDateFromServer (convertDateFromClient o) = o) ∧
    ((convertDateFromClient (convertDateFromServer
        ⟨"1", JsOpt.val "2023-05-01T00:00:00Z", ""⟩)).date =
      JsOpt.val "2023-05-01T00:00:00.000Z" ∧
      dayjs "2023-05-01T00:00:00.000Z" = dayjs "2023-05-01T00:00:00Z") ∧
    (∀ r : RestOrder, r.date = JsOpt.undef ∨ r.date = JsOpt.null →
      (convertDateFromServer r).date = JsOpt.undef) ∧
    (∀ o : IOrder, o.date = JsOpt.undef ∨ o.date = JsOpt.null →
      (convertDateFromClient o).date = JsOpt.null) := by
  refine ⟨fun o t hr hd => ?_, by decide, fun r hr => ?_, fun o ho => ?_⟩
  · cases o with
    | mk id date rest =>
      simp only at hd
      subst hd
      simp [convertDateFromClient, convertDateFromServer, dateToJSONOrNull,
        Dayjs.toJSON, formatISO_ne_empty t, dayjs_formatISO t hr]
  · rcases hr with h | h <;>
      simp [convertDateFromServer, h]
  · rcases ho with h | h <;>
      simp [convertDateFromClient, dateToJSONOrNull, h]

/-- C1 amended witness: the round trip evaluated on a concrete order
carrying the timestamp 2023-05-01T00:00:00.000Z, and the absence clauses
on concrete payloads. -/
theorem order_date_roundtrip_witness :
    convertDateFromServer (convertDateFromClient
        ⟨"1", JsOpt.val (Dayjs.valid ⟨2023, 5, 1, 0, 0, 0, 0⟩), "x"⟩) =
      ⟨"1", JsOpt.val (Dayjs.valid ⟨2023, 5, 1, 0, 0, 0, 0⟩), "x"⟩ ∧
    (convertDateFromServer ⟨"2", JsOpt.null, ""⟩).date = JsOpt.undef ∧
    (convertDateFromClient ⟨"3", JsOpt.undef, ""⟩).date = JsOpt.null :=
  ⟨order_date_roundtrip.1 _ ⟨2023, 5, 1, 0, 0, 0, 0⟩ (by decide) rfl,
   order_date_roundtrip.2.2.1 ⟨"2", JsOpt.null, ""⟩ (Or.inr rfl),
   order_date_roundtrip.2.2.2 ⟨"3", JsOpt.undef, ""⟩ (Or.inl rfl)⟩

/-- C6 counterexample: a partial order with no date field does not produce
a wire payload with no date field — `partialUpdate` always writes the date
key, as an explicit `null` when the input carries none. -/
theorem partialUpdate_payload_counterexample :
    (partialUpdateRequestBody ⟨"1", JsOpt.undef, JsOpt.undef⟩).date =
      JsOpt.null ∧
    (partialUpdateRequestBody ⟨"1", JsOpt.undef, JsOpt.undef⟩).date ≠
      JsOpt.undef := by
  decide

/-- C6 amended: the PATCH payload forwards the identifier and the other
supplied fields as given, and always carries a date field — the serialized
string when a valid date is present, an explicit `null` when the date is
missing or `null`. -/
theorem partialUpdate_payload_contract :
    ∀ order : PartialUpdateOrder,
      (partialUpdateRequestBody order).id = order.id ∧
      (partialUpdateRequestBody order).rest = order.rest ∧
      ((order.date = JsOpt.undef ∨ order.date = JsOpt.null) →
        (partialUpdateRequestBody order).date = JsOpt.null) ∧
      (∀ t : CivilTime, order.date = JsOpt.val (Dayjs.valid t) →
        (partialUpdateRequestBody order).date = JsOpt.val (formatISO t)) := by
  intro order
  refine ⟨rfl, rfl, fun h => ?_, fun t ht => ?_⟩
  · rcases h with h | h <;>
      simp [partialUpdateRequestBody, convertDateFromClientOnPatch,
        dateToJSONOrNull, h]
  · simp [partialUpdateRequestBody, convertDateFromClientOnPatch,
      dateToJSONOrNull, ht, Dayjs.toJSON]

/-- C6 amended witness: the payload clauses evaluated on concrete partial
orders with an absent date and with a present date. -/
theorem partialUpdate_payload_contract_witness :
    (partialUpdateRequestBody ⟨"1", JsOpt.undef, JsOpt.undef⟩).date =
      JsOpt.null ∧
    (partialUpdateRequestBody
        ⟨"1", JsOpt.val (Dayjs.valid ⟨2023, 5, 1, 0, 0, 0, 0⟩),
          JsOpt.undef⟩).date =
      JsOpt.val (formatISO ⟨2023, 5, 1, 0, 0, 0, 0⟩) :=
  ⟨(partialUpdate_payload_contract ⟨"1", JsOpt.undef, JsOpt.undef⟩).2.2.1
      (Or.inl rfl),
   (partialUpdate_payload_contract
      ⟨"1", JsOpt.val (Dayjs.valid ⟨2023, 5, 1, 0, 0, 0, 0⟩),
        JsOpt.undef⟩).2.2.2 ⟨2023, 5, 1, 0, 0, 0, 0⟩ rfl⟩
